import Mathlib

/-!
Verification development for the loghunter repository.

Go strings are modelled as lists of bytes (`List Nat`, each entry < 256 in
practice); Go `int`/`int64` values are modelled as `Int`, Go `float64`
confidence values as `Rat` (only order comparisons and exact constants are
involved).  Each definition is a shallow embedding of the correspondingly
named Go function; the source file and lines are cited in the doc comment.
-/

/-- Bytes of the UTF-8 encoding of one character (used only to spell out
concrete Go string literals as byte lists). -/
def utf8Bytes (c : Char) : List Nat :=
  let n := c.toNat
  if n < 128 then [n]
  else if n < 2048 then [192 + n / 64, 128 + n % 64]
  else if n < 65536 then [224 + n / 4096, 128 + (n / 64) % 64, 128 + n % 64]
  else [240 + n / 262144, 128 + (n / 4096) % 64, 128 + (n / 64) % 64, 128 + n % 64]

/-- The byte sequence of a Go string literal (UTF-8 encoding). -/
def strBytes (s : String) : List Nat :=
  (s.data.map utf8Bytes).flatten

/-- Go `utf8.RuneStart(b)`: a byte that is not a UTF-8 continuation byte,
i.e. `b & 0xC0 != 0x80`. -/
def runeStart (b : Nat) : Bool :=
  b &&& 192 != 128

/-- The loop of `truncateString` (internal/analysis/cluster.go lines 138-140 and
internal/ai/service.go lines 221-223): decrement `maxBytes` while the byte at
that index is a UTF-8 continuation byte. -/
def adjustBoundary (s : List Nat) : Nat → Nat
  | 0 => 0
  | m + 1 => if runeStart (s.getD (m + 1) 0) then m + 1 else adjustBoundary s m

/-- Go `truncateString(s, maxBytes)` (internal/analysis/cluster.go lines 134-142,
identical copy in internal/ai/service.go lines 217-225): truncate `s` to at most
`maxBytes` bytes without splitting UTF-8 runes. -/
def truncateString (s : List Nat) (maxBytes : Nat) : List Nat :=
  if s.length ≤ maxBytes then s
  else s.take (adjustBoundary s maxBytes)

/-- ASCII digit byte (regex `\d`). -/
def isDigit (b : Nat) : Bool := 48 ≤ b && b ≤ 57

/-- Hexadecimal digit byte (regex `[0-9a-fA-F]`). -/
def isHexDigit (b : Nat) : Bool :=
  (48 ≤ b && b ≤ 57) || (97 ≤ b && b ≤ 102) || (65 ≤ b && b ≤ 70)

/-- Byte matched by the Go regex class `\s`, namely `[\t\n\f\r ]`. -/
def isSpaceRE (b : Nat) : Bool :=
  b == 9 || b == 10 || b == 12 || b == 13 || b == 32

/-- ASCII byte trimmed by Go `strings.TrimSpace` (`unicode.IsSpace`
restricted to ASCII: tab, newline, vertical tab, form feed, carriage
return, space). -/
def isSpaceTrim (b : Nat) : Bool :=
  b == 9 || b == 10 || b == 11 || b == 12 || b == 13 || b == 32

/-- Consume exactly `n` ASCII digits, returning the rest of the input. -/
def dropDigitsExact : Nat → List Nat → Option (List Nat)
  | 0, l => some l
  | _ + 1, [] => none
  | n + 1, b :: bs => if isDigit b then dropDigitsExact n bs else none

/-- Consume exactly `n` hexadecimal digits, returning the rest of the input. -/
def dropHexExact : Nat → List Nat → Option (List Nat)
  | 0, l => some l
  | _ + 1, [] => none
  | n + 1, b :: bs => if isHexDigit b then dropHexExact n bs else none

/-- Consume one expected byte. -/
def expectByte (b : Nat) : List Nat → Option (List Nat)
  | [] => none
  | x :: xs => if x == b then some xs else none

/-- The optional fractional-seconds group `(\.\d+)?` of `reDatetime`
(internal/analysis/cluster.go line 18): a dot followed by at least one digit,
greedily consuming all following digits; otherwise consume nothing. -/
def matchOptFracSecs : List Nat → List Nat
  | 46 :: c :: rest =>
    if isDigit c then (c :: rest).dropWhile isDigit else 46 :: c :: rest
  | l => l

/-- The optional timezone group `(Z|[+-]\d{2}:\d{2})?` of `reDatetime`:
a literal `Z`, or a sign followed by `hh:mm`; otherwise consume nothing. -/
def matchOptTimezone : List Nat → List Nat
  | 90 :: rest => rest
  | b :: rest =>
    if b == 43 || b == 45 then
      match dropDigitsExact 2 rest with
      | some (58 :: l3) =>
        match dropDigitsExact 2 l3 with
        | some l4 => l4
        | none => b :: rest
      | _ => b :: rest
    else b :: rest
  | [] => []

/-- Match of the anchored regex `reDatetime`
`^\d{4}-\d{2}-\d{2}[T ]\d{2}:\d{2}:\d{2}(\.\d+)?(Z|[+-]\d{2}:\d{2})?\s*`
(internal/analysis/cluster.go line 18) at the start of the input, returning the
remaining bytes on success. -/
def matchDatetime (l : List Nat) : Option (List Nat) :=
  (dropDigitsExact 4 l).bind fun l =>
  (expectByte 45 l).bind fun l =>
  (dropDigitsExact 2 l).bind fun l =>
  (expectByte 45 l).bind fun l =>
  (dropDigitsExact 2 l).bind fun l =>
  (match l with
   | b :: rest => if b == 84 || b == 32 then some rest else none
   | [] => none).bind fun l =>
  (dropDigitsExact 2 l).bind fun l =>
  (expectByte 58 l).bind fun l =>
  (dropDigitsExact 2 l).bind fun l =>
  (expectByte 58 l).bind fun l =>
  (dropDigitsExact 2 l).bind fun l =>
  some (((matchOptTimezone (matchOptFracSecs l))).dropWhile isSpaceRE)

/-- `reDatetime.ReplaceAllString(msg, "")` (internal/analysis/cluster.go
line 105): the pattern is anchored with `^`, so at most the single match at
position 0 is removed. -/
def stripLeadingDatetime (s : List Nat) : List Nat :=
  match matchDatetime s with
  | some rest => rest
  | none => s

/-- Replacement text `0xADDR` of `reHexAddr`. -/
def hexAddrToken : List Nat := strBytes "0xADDR"

/-- Scanner for `reHexAddr.ReplaceAllString(msg, "0xADDR")` with the pattern
`0x[0-9a-fA-F]+` (internal/analysis/cluster.go lines 19, 106).  Fuel is the
length of the original input; every match consumes at least three bytes, so
the fuel never runs out. -/
def replaceHexAddrAux : Nat → List Nat → List Nat
  | _, [] => []
  | 0, l => l
  | fuel + 1, 48 :: 120 :: c :: rest =>
    if isHexDigit c then
      hexAddrToken ++ replaceHexAddrAux fuel ((c :: rest).dropWhile isHexDigit)
    else 48 :: replaceHexAddrAux fuel (120 :: c :: rest)
  | fuel + 1, b :: bs => b :: replaceHexAddrAux fuel bs

/-- `reHexAddr.ReplaceAllString(msg, "0xADDR")`. -/
def replaceHexAddr (s : List Nat) : List Nat :=
  replaceHexAddrAux s.length s

/-- Replacement text `UUID` of `reUUID`. -/
def uuidToken : List Nat := strBytes "UUID"

/-- Match of the regex `reUUID`
`(?i)[0-9a-f]{8}-[0-9a-f]{4}-[0-9a-f]{4}-[0-9a-f]{4}-[0-9a-f]{12}`
(internal/analysis/cluster.go line 20) at the current position. -/
def matchUUID (l : List Nat) : Option (List Nat) :=
  (dropHexExact 8 l).bind fun l =>
  (expectByte 45 l).bind fun l =>
  (dropHexExact 4 l).bind fun l =>
  (expectByte 45 l).bind fun l =>
  (dropHexExact 4 l).bind fun l =>
  (expectByte 45 l).bind fun l =>
  (dropHexExact 4 l).bind fun l =>
  (expectByte 45 l).bind fun l =>
  dropHexExact 12 l

/-- Scanner for `reUUID.ReplaceAllString(msg, "UUID")`
(internal/analysis/cluster.go line 107). -/
def replaceUUIDAux : Nat → List Nat → List Nat
  | _, [] => []
  | 0, l => l
  | fuel + 1, b :: bs =>
    match matchUUID (b :: bs) with
    | some rest => uuidToken ++ replaceUUIDAux fuel rest
    | none => b :: replaceUUIDAux fuel bs

/-- `reUUID.ReplaceAllString(msg, "UUID")`. -/
def replaceUUID (s : List Nat) : List Nat :=
  replaceUUIDAux s.length s

/-- Match of `reBracketNum` `\[\d+\]` (internal/analysis/cluster.go line 21)
at the current position. -/
def matchBracketNum : List Nat → Option (List Nat)
  | 91 :: c :: rest =>
    if isDigit c then
      match (c :: rest).dropWhile isDigit with
      | 93 :: rest₂ => some rest₂
      | _ => none
    else none
  | _ => none

/-- Scanner for `reBracketNum.ReplaceAllString(msg, "[N]")`
(internal/analysis/cluster.go line 108). -/
def replaceBracketNumAux : Nat → List Nat → List Nat
  | _, [] => []
  | 0, l => l
  | fuel + 1, b :: bs =>
    match matchBracketNum (b :: bs) with
    | some rest => strBytes "[N]" ++ replaceBracketNumAux fuel rest
    | none => b :: replaceBracketNumAux fuel bs

/-- `reBracketNum.ReplaceAllString(msg, "[N]")`. -/
def replaceBracketNum (s : List Nat) : List Nat :=
  replaceBracketNumAux s.length s

/-- Match of `reParenNum` `\(\d+\)` (internal/analysis/cluster.go line 22)
at the current position. -/
def matchParenNum : List Nat → Option (List Nat)
  | 40 :: c :: rest =>
    if isDigit c then
      match (c :: rest).dropWhile isDigit with
      | 41 :: rest₂ => some rest₂
      | _ => none
    else none
  | _ => none

/-- Scanner for `reParenNum.ReplaceAllString(msg, "(N)")`
(internal/analysis/cluster.go line 109). -/
def replaceParenNumAux : Nat → List Nat → List Nat
  | _, [] => []
  | 0, l => l
  | fuel + 1, b :: bs =>
    match matchParenNum (b :: bs) with
    | some rest => strBytes "(N)" ++ replaceParenNumAux fuel rest
    | none => b :: replaceParenNumAux fuel bs

/-- `reParenNum.ReplaceAllString(msg, "(N)")`. -/
def replaceParenNum (s : List Nat) : List Nat :=
  replaceParenNumAux s.length s

/-- Scanner for `reWhitespace.ReplaceAllString(msg, " ")` with pattern `\s+`
(internal/analysis/cluster.go lines 23, 110): every maximal run of whitespace
bytes becomes a single space. -/
def collapseWhitespaceAux : Nat → List Nat → List Nat
  | _, [] => []
  | 0, l => l
  | fuel + 1, b :: bs =>
    if isSpaceRE b then 32 :: collapseWhitespaceAux fuel (bs.dropWhile isSpaceRE)
    else b :: collapseWhitespaceAux fuel bs

/-- `reWhitespace.ReplaceAllString(msg, " ")`. -/
def collapseWhitespace (s : List Nat) : List Nat :=
  collapseWhitespaceAux s.length s

/-- Go `strings.ToLower` restricted to its ASCII action (all bytes occurring
in the verified claims are ASCII; non-ASCII bytes are left unchanged). -/
def toLowerBytes (s : List Nat) : List Nat :=
  s.map fun b => if 65 ≤ b && b ≤ 90 then b + 32 else b

/-- Go `strings.TrimSpace` restricted to its ASCII action: drop leading and
trailing ASCII whitespace bytes. -/
def trimSpaceBytes (s : List Nat) : List Nat :=
  ((s.dropWhile isSpaceTrim).reverse.dropWhile isSpaceTrim).reverse

/-- Go `NormalizeMessage` (internal/analysis/cluster.go lines 104-115):
the nine normalization stages applied in source order. -/
def NormalizeMessage (msg : List Nat) : List Nat :=
  truncateString
    (trimSpaceBytes
      (toLowerBytes
        (collapseWhitespace
          (replaceParenNum
            (replaceBracketNum
              (replaceUUID
                (replaceHexAddr
                  (stripLeadingDatetime msg)))))))) 500

/-- ASCII uppercase of a Lean string, modelling Go `strings.ToUpper` on the
ASCII level strings it is applied to. -/
def asciiUpper (s : String) : String :=
  String.mk (s.data.map fun c =>
    if 97 ≤ c.toNat && c.toNat ≤ 122 then Char.ofNat (c.toNat - 32) else c)

/-- Go `LevelSeverity` (internal/analysis/cluster.go lines 118-131): numeric
severity of a log level string. -/
def LevelSeverity (level : String) : Nat :=
  let u := asciiUpper level
  if u = "FATAL" then 4
  else if u = "CRITICAL" then 3
  else if u = "ERROR" then 2
  else if u = "WARN" ∨ u = "WARNING" then 1
  else 0

/-! ### SHA-256 (crypto/sha256), used by `Fingerprint` -/

/-- Truncation to a 32-bit word. -/
def w32 (n : Nat) : Nat := n % 4294967296

/-- 32-bit right rotation (argument assumed < 2^32). -/
def rotr32 (n x : Nat) : Nat := w32 ((x >>> n) ||| (x <<< (32 - n)))

/-- SHA-256 Ch function. -/
def shaCh (x y z : Nat) : Nat := (x &&& y) ^^^ ((4294967295 - x) &&& z)

/-- SHA-256 Maj function. -/
def shaMaj (x y z : Nat) : Nat := (x &&& y) ^^^ (x &&& z) ^^^ (y &&& z)

/-- SHA-256 Σ0. -/
def bigSigma0 (x : Nat) : Nat := rotr32 2 x ^^^ rotr32 13 x ^^^ rotr32 22 x

/-- SHA-256 Σ1. -/
def bigSigma1 (x : Nat) : Nat := rotr32 6 x ^^^ rotr32 11 x ^^^ rotr32 25 x

/-- SHA-256 σ0. -/
def smallSigma0 (x : Nat) : Nat := rotr32 7 x ^^^ rotr32 18 x ^^^ (x >>> 3)

/-- SHA-256 σ1. -/
def smallSigma1 (x : Nat) : Nat := rotr32 17 x ^^^ rotr32 19 x ^^^ (x >>> 10)

/-- SHA-256 round constants. -/
def shaK : List Nat :=
  [1116352408, 1899447441, 3049323471, 3921009573,
   961987163, 1508970993, 2453635748, 2870763221,
   3624381080, 310598401, 607225278, 1426881987,
   1925078388, 2162078206, 2614888103, 3248222580,
   3835390401, 4022224774, 264347078, 604807628,
   770255983, 1249150122, 1555081692, 1996064986,
   2554220882, 2821834349, 2952996808, 3210313671,
   3336571891, 3584528711, 113926993, 338241895,
   666307205, 773529912, 1294757372, 1396182291,
   1695183700, 1986661051, 2177026350, 2456956037,
   2730485921, 2820302411, 3259730800, 3345764771,
   3516065817, 3600352804, 4094571909, 275423344,
   430227734, 506948616, 659060556, 883997877,
   958139571, 1322822218, 1537002063, 1747873779,
   1955562222, 2024104815, 2227730452, 2361852424,
   2428436474, 2756734187, 3204031479, 3329325298]

/-- SHA-256 hash state (eight 32-bit words). -/
structure Sha256State where
  h0 : Nat
  h1 : Nat
  h2 : Nat
  h3 : Nat
  h4 : Nat
  h5 : Nat
  h6 : Nat
  h7 : Nat

/-- SHA-256 initial hash value. -/
def shaInit : Sha256State :=
  ⟨1779033703, 3144134277, 1013904242, 2773480762,
   1359893119, 2600822924, 528734635, 1541459225⟩

/-- One SHA-256 compression round; the state fields play the roles a-h. -/
def shaRound (s : Sha256State) (k w : Nat) : Sha256State :=
  let t1 := w32 (s.h7 + bigSigma1 s.h4 + shaCh s.h4 s.h5 s.h6 + k + w)
  let t2 := w32 (bigSigma0 s.h0 + shaMaj s.h0 s.h1 s.h2)
  ⟨w32 (t1 + t2), s.h0, s.h1, s.h2, w32 (s.h3 + t1), s.h4, s.h5, s.h6⟩

/-- Big-endian 32-bit words of a byte list (length a multiple of 4). -/
def toWords : List Nat → List Nat
  | b0 :: b1 :: b2 :: b3 :: rest =>
    (b0 * 16777216 + b1 * 65536 + b2 * 256 + b3) :: toWords rest
  | _ => []

/-- Extend the 16 message words with `n` further schedule words. -/
def scheduleAux : Nat → List Nat → List Nat
  | 0, w => w
  | n + 1, w =>
    let i := w.length
    let next := w32 (smallSigma1 (w.getD (i - 2) 0) + w.getD (i - 7) 0 +
                     smallSigma0 (w.getD (i - 15) 0) + w.getD (i - 16) 0)
    scheduleAux n (w ++ [next])

/-- The 64-word SHA-256 message schedule of one block. -/
def schedule (w16 : List Nat) : List Nat := scheduleAux 48 w16

/-- Compress one 64-byte block into the hash state. -/
def compressBlock (st : Sha256State) (block : List Nat) : Sha256State :=
  let ws := schedule (toWords block)
  let f := (shaK.zip ws).foldl (fun s kw => shaRound s kw.1 kw.2) st
  ⟨w32 (st.h0 + f.h0), w32 (st.h1 + f.h1), w32 (st.h2 + f.h2), w32 (st.h3 + f.h3),
   w32 (st.h4 + f.h4), w32 (st.h5 + f.h5), w32 (st.h6 + f.h6), w32 (st.h7 + f.h7)⟩

/-- Big-endian 8-byte encoding of the message bit length. -/
def lenBytes (L : Nat) : List Nat :=
  [L / 72057594037927936 % 256, L / 281474976710656 % 256, L / 1099511627776 % 256,
   L / 4294967296 % 256, L / 16777216 % 256, L / 65536 % 256, L / 256 % 256, L % 256]

/-- SHA-256 padding: append `0x80`, zeros to 56 mod 64, and the 64-bit length. -/
def padMessage (msg : List Nat) : List Nat :=
  let len := msg.length
  msg ++ 128 :: List.replicate ((119 - len % 64) % 64) 0 ++ lenBytes (8 * len)

/-- Split into 64-byte blocks. -/
def toBlocksAux : Nat → List Nat → List (List Nat)
  | _, [] => []
  | 0, _ => []
  | fuel + 1, l => l.take 64 :: toBlocksAux fuel (l.drop 64)

/-- Blocks of a padded message. -/
def toBlocks (l : List Nat) : List (List Nat) := toBlocksAux l.length l

/-- Big-endian bytes of one hash word. -/
def wordBytes (w : Nat) : List Nat :=
  [w / 16777216 % 256, w / 65536 % 256, w / 256 % 256, w % 256]

/-- Go `sha256.Sum256`: the 32-byte SHA-256 digest of a byte sequence. -/
def sha256 (msg : List Nat) : List Nat :=
  let final := (toBlocks (padMessage msg)).foldl compressBlock shaInit
  wordBytes final.h0 ++ wordBytes final.h1 ++ wordBytes final.h2 ++ wordBytes final.h3 ++
  wordBytes final.h4 ++ wordBytes final.h5 ++ wordBytes final.h6 ++ wordBytes final.h7

/-- Lowercase hexadecimal digit byte for a nibble. -/
def hexChar (n : Nat) : Nat := if n % 16 < 10 then 48 + n % 16 else 87 + n % 16

/-- Go `fmt.Sprintf("%x", hash)`: two lowercase hex digit bytes per input byte. -/
def toHexBytes : List Nat → List Nat
  | [] => []
  | b :: bs => hexChar (b / 16) :: hexChar b :: toHexBytes bs

/-- Go `Fingerprint` (internal/analysis/cluster.go lines 96-101): the lowercase
hex encoding of the SHA-256 digest of the normalized message. -/
def Fingerprint (message : List Nat) : List Nat :=
  toHexBytes (sha256 (NormalizeMessage message))

/-! ### Cluster engine (internal/analysis/cluster.go lines 29-94) -/

/-- Go `models.LogLine` (pkg/models/ai.go), restricted to the fields the
cluster engine reads; the timestamp is `UnixNano`. -/
structure LogLine where
  timestamp : Int
  message : List Nat
  level : String

/-- The local `clusterState` of `Cluster` (internal/analysis/cluster.go
lines 34-41). -/
structure ClusterState where
  fingerprint : List Nat
  level : String
  count : Int
  firstSeen : Int
  lastSeen : Int
  sampleMessage : List Nat
deriving DecidableEq

/-- Go `models.ErrorCluster` as produced by `Cluster` (internal/analysis/
cluster.go lines 73-83).  The `ID` field is a fresh random UUID in Go and is
not modelled. -/
structure ErrorClusterOut where
  service : String
  ns : String
  fingerprint : List Nat
  level : String
  firstSeenAt : Int
  lastSeenAt : Int
  count : Int
  sampleMessage : List Nat
deriving DecidableEq

/-- The per-line mutation of a cluster state (internal/analysis/cluster.go
lines 59-68): increment count, widen the seen window, keep the
highest-severity level. -/
def applyLine (cs : ClusterState) (line : LogLine) : ClusterState :=
  { cs with
    count := cs.count + 1
    firstSeen := if line.timestamp < cs.firstSeen then line.timestamp else cs.firstSeen
    lastSeen := if line.timestamp > cs.lastSeen then line.timestamp else cs.lastSeen
    level := if LevelSeverity line.level > LevelSeverity cs.level then line.level else cs.level }

/-- The fresh cluster state created on first sight of a fingerprint
(internal/analysis/cluster.go lines 49-56). -/
def newClusterState (fp : List Nat) (line : LogLine) : ClusterState :=
  { fingerprint := fp
    level := line.level
    count := 0
    firstSeen := line.timestamp
    lastSeen := line.timestamp
    sampleMessage := truncateString line.message 2000 }

/-- One iteration of the grouping loop of `Cluster` (internal/analysis/
cluster.go lines 45-69).  The Go `map[string]*clusterState` is modelled as
an association list in first-insertion order; `Cluster` only reads the map
through lookup and an (order-unspecified) iteration that is subsequently
sorted, so the list order is a sound refinement. -/
def clusterStep (groups : List ClusterState) (line : LogLine) : List ClusterState :=
  let fp := Fingerprint line.message
  if groups.any fun cs => cs.fingerprint = fp then
    groups.map fun cs => if cs.fingerprint = fp then applyLine cs line else cs
  else
    groups ++ [applyLine (newClusterState fp line) line]

/-- The `models.ErrorCluster` built from a final cluster state
(internal/analysis/cluster.go lines 73-83). -/
def stateToCluster (service ns : String) (cs : ClusterState) : ErrorClusterOut :=
  { service := service
    ns := ns
    fingerprint := cs.fingerprint
    level := cs.level
    firstSeenAt := cs.firstSeen
    lastSeenAt := cs.lastSeen
    count := cs.count
    sampleMessage := cs.sampleMessage }

/-- The sort order established by the `sort.Slice` call of `Cluster`
(internal/analysis/cluster.go lines 86-91): count descending, then severity
descending.  `clusterLE a b` states that `a` may legally precede `b`. -/
def clusterLE (a b : ErrorClusterOut) : Prop :=
  b.count < a.count ∨ (a.count = b.count ∧ LevelSeverity b.level ≤ LevelSeverity a.level)

instance : DecidableRel clusterLE := fun a b => by
  unfold clusterLE; infer_instance

instance : IsTotal ErrorClusterOut clusterLE where
  total a b := by
    unfold clusterLE
    rcases lt_trichotomy a.count b.count with h | h | h
    · exact Or.inr (Or.inl h)
    · rcases Nat.le_total (LevelSeverity b.level) (LevelSeverity a.level) with h2 | h2
      · exact Or.inl (Or.inr ⟨h, h2⟩)
      · exact Or.inr (Or.inr ⟨h.symm, h2⟩)
    · exact Or.inl (Or.inl h)

instance : IsTrans ErrorClusterOut clusterLE where
  trans a b c hab hbc := by
    unfold clusterLE at *
    rcases hab with h1 | ⟨h1, h1s⟩ <;> rcases hbc with h2 | ⟨h2, h2s⟩
    · exact Or.inl (h2.trans h1)
    · exact Or.inl (h2 ▸ h1)
    · exact Or.inl (h1 ▸ h2)
    · exact Or.inr ⟨h1.trans h2, h2s.trans h1s⟩

/-- Go `Cluster` (internal/analysis/cluster.go lines 29-94): group the lines
by fingerprint and sort by (count descending, severity descending).  Go's
`sort.Slice` is an unstable comparison sort; it is modelled by insertion sort
with respect to the (total, transitive) non-strict order `clusterLE`, which
produces a sequence sorted in exactly the sense `sort.Slice` guarantees. -/
def Cluster (lines : List LogLine) (service ns : String) : List ErrorClusterOut :=
  if lines.length = 0 then []
  else
    let groups := lines.foldl clusterStep []
    List.insertionSort clusterLE (groups.map (stateToCluster service ns))

/-! ### Postgres store models (src/unnamed/part_000) -/

/-- A row of the `error_clusters` table, with the columns touched by
`UpsertErrorCluster` (src/unnamed/part_000 lines 130-150).  UUIDs are modelled
as opaque `Nat` identifiers. -/
structure ErrorClusterRow where
  id : Nat
  tenantId : Nat
  service : String
  ns : String
  fingerprint : List Nat
  level : String
  firstSeenAt : Int
  lastSeenAt : Int
  count : Int
  sampleMessage : List Nat
  createdAt : Int
  updatedAt : Int
deriving DecidableEq

/-- The unique key `(tenant_id, service, namespace, fingerprint)` of the
`error_clusters` table. -/
def rowKey (r : ErrorClusterRow) : Nat × String × String × List Nat :=
  (r.tenantId, r.service, r.ns, r.fingerprint)

/-- Go `UpsertErrorCluster` (src/unnamed/part_000 lines 130-150), modelled on
a table held as a list of rows.  `INSERT ... ON CONFLICT (tenant_id, service,
namespace, fingerprint) DO UPDATE SET count = error_clusters.count +
EXCLUDED.count, last_seen_at = GREATEST(error_clusters.last_seen_at,
EXCLUDED.last_seen_at), updated_at = NOW() RETURNING *`: on conflict only
`count`, `last_seen_at` and `updated_at` of the existing row change; all
other columns (including `id` and `level`) keep their stored values.  Returns
the new table and the canonical row. -/
def UpsertErrorCluster (table : List ErrorClusterRow) (c : ErrorClusterRow)
    (now : Int) : List ErrorClusterRow × ErrorClusterRow :=
  match table.find? (fun r => rowKey r = rowKey c) with
  | some r =>
    let merged := { r with
      count := r.count + c.count
      lastSeenAt := max r.lastSeenAt c.lastSeenAt
      updatedAt := now }
    (table.map fun x => if rowKey x = rowKey c then merged else x, merged)
  | none => (table ++ [c], c)

/-- A sequence of `UpsertErrorCluster` calls, applied left to right. -/
def upsertAll (table : List ErrorClusterRow) (cs : List ErrorClusterRow)
    (now : Int) : List ErrorClusterRow :=
  cs.foldl (fun t c => (UpsertErrorCluster t c now).1) table

/-- Lookup of the row holding a given unique key. -/
def getRow (table : List ErrorClusterRow) (k : Nat × String × String × List Nat) :
    Option ErrorClusterRow :=
  table.find? fun r => rowKey r = k

/-- A row of the `jobs` table, with the columns read and written by
`UpdateJobStatus` (src/unnamed/part_000 lines 352-414). -/
structure JobRow where
  id : Nat
  status : String
  startedAt : Option Int
  completedAt : Option Int
  errorMessage : Option String
  clusterId : Option Nat
  updatedAt : Int
deriving DecidableEq

/-- Go `jobUpdateParams` (internal/store/store.go lines 50-53), the result of
applying the `JobUpdateOption` functional options. -/
structure JobUpdateParams where
  errorMessage : Option String := none
  clusterId : Option Nat := none

/-- Go `validTransitions` (src/unnamed/part_000 lines 347-350).  A Go map
lookup on a missing key returns the zero value, here the empty slice. -/
def validTransitions (s : String) : List String :=
  if s = "pending" then ["running"]
  else if s = "running" then ["completed", "failed"]
  else []

/-- Go `UpdateJobStatus` (src/unnamed/part_000 lines 352-414) on one job row:
validate the transition against `validTransitions`, then perform the dynamic
`UPDATE` — always `status` and `updated_at`, plus `started_at` on entering
`running`, `completed_at` on entering `completed` or `failed`, and any
supplied error message or cluster reference. -/
def UpdateJobStatus (j : JobRow) (status : String) (now : Int)
    (params : JobUpdateParams) : Except String JobRow :=
  let allowed := validTransitions j.status
  if allowed.contains status then
    Except.ok { j with
      status := status
      updatedAt := now
      startedAt := if status = "running" then some now else j.startedAt
      completedAt :=
        if status = "completed" ∨ status = "failed" then some now else j.completedAt
      errorMessage :=
        match params.errorMessage with
        | some m => some m
        | none => j.errorMessage
      clusterId :=
        match params.clusterId with
        | some c => some c
        | none => j.clusterId }
  else
    Except.error ("invalid job status transition: " ++ j.status ++ " -> " ++ status)

/-! ### AI analysis service (internal/ai/service.go) -/

/-- The fields of a provider `models.AnalysisResult` that `runAnalysis`
post-processes (pkg/models/ai.go; confidence is a `float64`, modelled as a
rational since only order comparisons and exact constants occur). -/
structure ProviderAnalysisResult where
  rootCause : List Nat
  confidence : Rat
  summary : List Nat
  suggestedAction : List Nat

/-- The analysis result as persisted by `CreateAnalysisResult`. -/
structure PersistedAnalysisResult where
  rootCause : List Nat
  confidence : Rat
  summary : List Nat
  suggestedAction : List Nat
  provider : String
  jobId : Nat
  clusterId : Nat
  tenantId : Nat
  createdAt : Int

/-- The post-processing `runAnalysis` applies to a successful provider result
before persisting it (internal/ai/service.go lines 139-158): clamp confidence
to [0, 1] with two sequential comparisons, truncate `root_cause` to 4000 and
`summary` to 2000 bytes UTF-8-aware, and fill in the identifiers and
`provider = provider.Name()`. -/
def processAnalysisResult (r : ProviderAnalysisResult) (providerName : String)
    (jobId clusterId tenantId : Nat) (now : Int) : PersistedAnalysisResult :=
  let conf := if r.confidence < 0 then 0 else r.confidence
  let conf := if conf > 1 then 1 else conf
  { rootCause := truncateString r.rootCause 4000
    confidence := conf
    summary := truncateString r.summary 2000
    suggestedAction := r.suggestedAction
    provider := providerName
    jobId := jobId
    clusterId := clusterId
    tenantId := tenantId
    createdAt := now }

/-- Go `SummarizeResult` (internal/ai/service.go lines 29-36). -/
structure SummarizeResult where
  summary : String
  linesAnalyzed : Nat
  fromTime : Int
  toTime : Int
  provider : String
  model : String

/-- The failure modes of `Summarize`. -/
inductive SummarizeFailure
  | queryFailed
  | noLogsFound
  | providerFailed
deriving DecidableEq

/-- Go `Summarize` (internal/ai/service.go lines 173-214), with the two
external calls (the Loki range query and the provider summarization)
abstracted as supplied outcomes.  On success the Go code builds the
`SummarizeResult` literal of lines 207-213, which omits the `Model` field:
the Go zero value of `string` is the empty string. -/
def Summarize (providerName : String) (startT endT : Int)
    (queryOutcome : Except Unit (List (List Nat)))
    (providerOutcome : Except Unit String) :
    Except SummarizeFailure SummarizeResult :=
  match queryOutcome with
  | Except.error _ => Except.error SummarizeFailure.queryFailed
  | Except.ok logs =>
    if logs.length = 0 then Except.error SummarizeFailure.noLogsFound
    else
      let truncated := logs.map fun m => truncateString m 500
      match providerOutcome with
      | Except.error _ => Except.error SummarizeFailure.providerFailed
      | Except.ok summaryText =>
        Except.ok
          { summary := summaryText
            linesAnalyzed := truncated.length
            fromTime := startT
            toTime := endT
            provider := providerName
            model := "" }

/-! ### Rate-limit middleware (internal/config/config.go lines 237-273) -/

/-- The observable outcome of one pass through `RateLimit.Limit` for a single
request: whether the request reaches the next handler, which rate-limit
headers are set, and the error response if rejected. -/
structure RateLimitOutcome where
  allowed : Bool
  limitHeader : Option Int
  remainingHeader : Option Int
  resetHeader : Option Int
  retryAfter : Option Int
  statusCode : Option Nat
  errorCode : Option String
deriving DecidableEq

/-- Go `RateLimit.Limit` (internal/config/config.go lines 237-273) for one
request.  `keyPref` is the credential key prefix set by the auth middleware
(absent means pass through), `incrOutcome` is the result of
`cache.IncrWithExpiry` (an error means fail open with no headers), `now` is
the current unix time in seconds. -/
def rateLimitStep (requestsPerMin : Int) (keyPref : Option String)
    (incrOutcome : Except Unit Int) (now : Int) : RateLimitOutcome :=
  match keyPref with
  | none =>
    { allowed := true, limitHeader := none, remainingHeader := none,
      resetHeader := none, retryAfter := none, statusCode := none, errorCode := none }
  | some _ =>
    match incrOutcome with
    | Except.error _ =>
      { allowed := true, limitHeader := none, remainingHeader := none,
        resetHeader := none, retryAfter := none, statusCode := none, errorCode := none }
    | Except.ok count =>
      let remaining := requestsPerMin - count
      let remaining := if remaining < 0 then 0 else remaining
      let resetTime := now + 60
      if count > requestsPerMin then
        { allowed := false
          limitHeader := some requestsPerMin
          remainingHeader := some remaining
          resetHeader := some resetTime
          retryAfter := some 60
          statusCode := some 429
          errorCode := some "RATE_LIMIT_EXCEEDED" }
      else
        { allowed := true
          limitHeader := some requestsPerMin
          remainingHeader := some remaining
          resetHeader := some resetTime
          retryAfter := none
          statusCode := none
          errorCode := none }

/-- Maximum of a list of integers (0 for the empty list); used to state the
`last_seen_at = GREATEST(...)` accumulation across a sequence of upserts. -/
def maxOfList : List Int → Int
  | [] => 0
  | x :: xs => xs.foldl max x

/-- A stored `error_clusters` row with level `error` (concrete instance for
the upsert-level claims). -/
def c1stored : ErrorClusterRow :=
  { id := 1, tenantId := 7, service := "api", ns := "prod",
    fingerprint := strBytes "fp1", level := "error",
    firstSeenAt := 0, lastSeenAt := 10, count := 3,
    sampleMessage := strBytes "db connection failed",
    createdAt := 0, updatedAt := 0 }

/-- An incoming cluster with the same unique key as `c1stored` but strictly
higher severity level `fatal`. -/
def c1incoming : ErrorClusterRow :=
  { id := 2, tenantId := 7, service := "api", ns := "prod",
    fingerprint := strBytes "fp1", level := "fatal",
    firstSeenAt := 5, lastSeenAt := 20, count := 1,
    sampleMessage := strBytes "db connection failed hard",
    createdAt := 5, updatedAt := 5 }

/-- A second incoming cluster with the same unique key (for the accumulation
witness). -/
def c5third : ErrorClusterRow :=
  { id := 3, tenantId := 7, service := "api", ns := "prod",
    fingerprint := strBytes "fp1", level := "warn",
    firstSeenAt := 2, lastSeenAt := 15, count := 4,
    sampleMessage := strBytes "db connection flaky",
    createdAt := 6, updatedAt := 6 }

/-- A pending job (concrete instance for the job transition witness). -/
def jobPending : JobRow :=
  { id := 11, status := "pending", startedAt := none, completedAt := none,
    errorMessage := none, clusterId := none, updatedAt := 0 }

/-- The row `jobPending` after a successful transition to `running` at time 7. -/
def jobRunningAt7 : JobRow :=
  { id := 11, status := "running", startedAt := some 7, completedAt := none,
    errorMessage := none, clusterId := none, updatedAt := 7 }

/-- A provider analysis result with out-of-range confidence 1.5 (concrete
instance for the clamping witness). -/
def overconfidentResult : ProviderAnalysisResult :=
  { rootCause := strBytes "OOM", confidence := 3 / 2,
    summary := strBytes "Out of memory", suggestedAction := strBytes "add memory" }

/-! ### Helper lemmas about `truncateString` -/

theorem adjustBoundary_le (s : List Nat) : ∀ m, adjustBoundary s m ≤ m := by
  intro m
  induction m with
  | zero => exact Nat.le_refl 0
  | succ m ih =>
    by_cases h : runeStart (s.getD (m + 1) 0) = true
    · rw [adjustBoundary, if_pos h]
    · rw [adjustBoundary, if_neg h]
      exact ih.trans (Nat.le_succ m)

theorem adjustBoundary_boundary (s : List Nat) :
    ∀ m, adjustBoundary s m = 0 ∨ runeStart (s.getD (adjustBoundary s m) 0) = true := by
  intro m
  induction m with
  | zero => exact Or.inl rfl
  | succ m ih =>
    by_cases h : runeStart (s.getD (m + 1) 0) = true
    · rw [adjustBoundary, if_pos h]
      exact Or.inr h
    · rw [adjustBoundary, if_neg h]
      exact ih

theorem truncateString_eq_of_le {s : List Nat} {m : Nat} (h : s.length ≤ m) :
    truncateString s m = s := by
  rw [truncateString, if_pos h]

theorem truncateString_length_le (s : List Nat) (m : Nat) :
    (truncateString s m).length ≤ m := by
  rw [truncateString]
  split
  next h => exact h
  next h =>
    rw [List.length_take]
    exact le_trans (min_le_left _ _) (adjustBoundary_le s m)

theorem truncateString_append (s : List Nat) (m : Nat) :
    ∃ t, truncateString s m ++ t = s := by
  rw [truncateString]
  split
  · exact ⟨[], List.append_nil _⟩
  · exact ⟨s.drop (adjustBoundary s m), List.take_append_drop _ _⟩

theorem truncateString_boundary (s : List Nat) (m : Nat) :
    (truncateString s m).length = s.length ∨
    (truncateString s m).length = 0 ∨
    runeStart (s.getD (truncateString s m).length 0) = true := by
  rw [truncateString]
  split
  next h => exact Or.inl rfl
  next h =>
    have hm : adjustBoundary s m ≤ m := adjustBoundary_le s m
    have hlt : m < s.length := Nat.lt_of_not_le h
    have hlen : (s.take (adjustBoundary s m)).length = adjustBoundary s m := by
      rw [List.length_take]
      exact min_eq_left (le_of_lt (lt_of_le_of_lt hm hlt))
    rw [hlen]
    rcases adjustBoundary_boundary s m with h0 | hr
    · exact Or.inr (Or.inl h0)
    · exact Or.inr (Or.inr hr)

/-- C9: for every valid-UTF-8 string (ranged over as the UTF-8 bytes of a
Lean `String`, which are exactly the valid UTF-8 byte sequences) and every
`maxBytes ≥ 0`, `truncateString` returns a prefix of at most `maxBytes`
bytes whose end falls on a UTF-8 rune boundary (either the whole string, or
a cut position that is the start of a rune, possibly empty), and returns the
string unchanged whenever it already fits. -/
theorem truncateString_spec (s : String) (maxBytes : Nat) :
    (∃ t, truncateString (strBytes s) maxBytes ++ t = strBytes s) ∧
    (truncateString (strBytes s) maxBytes).length ≤ maxBytes ∧
    ((truncateString (strBytes s) maxBytes).length = (strBytes s).length ∨
     (truncateString (strBytes s) maxBytes).length = 0 ∨
     runeStart ((strBytes s).getD (truncateString (strBytes s) maxBytes).length 0) = true) ∧
    ((strBytes s).length ≤ maxBytes → truncateString (strBytes s) maxBytes = strBytes s) :=
  ⟨truncateString_append _ _, truncateString_length_le _ _, truncateString_boundary _ _,
   truncateString_eq_of_le⟩

/-- Witness for `truncateString_spec` at a concrete multi-byte input. -/
theorem truncateString_spec_witness :
    (strBytes "héllo").length ≤ 9 ∧ truncateString (strBytes "héllo") 9 = strBytes "héllo" :=
  ⟨by decide, (truncateString_spec "héllo" 9).2.2.2 (by decide)⟩

/-! ### Normalization: idempotence and fingerprint stability -/

theorem normalizeMessage_length_le (x : List Nat) : (NormalizeMessage x).length ≤ 500 := by
  rw [NormalizeMessage]
  exact truncateString_length_le _ _

theorem normalize_fix_of_stages (y : List Nat)
    (h1 : stripLeadingDatetime y = y) (h2 : replaceHexAddr y = y)
    (h3 : replaceUUID y = y) (h4 : replaceBracketNum y = y)
    (h5 : replaceParenNum y = y) (h6 : collapseWhitespace y = y)
    (h7 : toLowerBytes y = y) (h8 : trimSpaceBytes y = y)
    (hlen : y.length ≤ 500) : NormalizeMessage y = y := by
  rw [NormalizeMessage, h1, h2, h3, h4, h5, h6, h7, h8, truncateString_eq_of_le hlen]

/-- C2 counterexample: normalization is not idempotent.  The message `0x1`
normalizes to `0xaddr` (the hex-address placeholder, lowercased), but
normalizing again matches `0xadd` as a fresh hex address and yields
`0xaddrr`. -/
theorem normalize_not_idempotent :
    NormalizeMessage (NormalizeMessage (strBytes "0x1")) ≠ NormalizeMessage (strBytes "0x1") ∧
    NormalizeMessage (strBytes "0x1") = strBytes "0xaddr" ∧
    NormalizeMessage (strBytes "0xaddr") = strBytes "0xaddrr" := by
  decide

/-- C2 (amended): `NormalizeMessage (NormalizeMessage x) = NormalizeMessage x`
holds for every message `x` whose normalized form is left fixed by each
individual normalization stage (in general idempotence fails, see the
counterexample: a normalized form may itself contain a leading datetime or a
hex-address pattern reintroduced by the `0xADDR` placeholder). -/
theorem normalize_idempotent_of_stages_fix (x : List Nat)
    (h1 : stripLeadingDatetime (NormalizeMessage x) = NormalizeMessage x)
    (h2 : replaceHexAddr (NormalizeMessage x) = NormalizeMessage x)
    (h3 : replaceUUID (NormalizeMessage x) = NormalizeMessage x)
    (h4 : replaceBracketNum (NormalizeMessage x) = NormalizeMessage x)
    (h5 : replaceParenNum (NormalizeMessage x) = NormalizeMessage x)
    (h6 : collapseWhitespace (NormalizeMessage x) = NormalizeMessage x)
    (h7 : toLowerBytes (NormalizeMessage x) = NormalizeMessage x)
    (h8 : trimSpaceBytes (NormalizeMessage x) = NormalizeMessage x) :
    NormalizeMessage (NormalizeMessage x) = NormalizeMessage x :=
  normalize_fix_of_stages _ h1 h2 h3 h4 h5 h6 h7 h8 (normalizeMessage_length_le x)

/-- Witness for `normalize_idempotent_of_stages_fix` at a concrete message. -/
theorem normalize_idempotent_witness :
    NormalizeMessage (NormalizeMessage (strBytes "connection refused")) =
      NormalizeMessage (strBytes "connection refused") :=
  normalize_idempotent_of_stages_fix _ (by decide) (by decide) (by decide) (by decide)
    (by decide) (by decide) (by decide) (by decide)

theorem toHexBytes_length : ∀ l : List Nat, (toHexBytes l).length = 2 * l.length := by
  intro l
  induction l with
  | nil => rfl
  | cons b bs ih =>
    rw [toHexBytes]
    simp [ih]
    omega

theorem sha256_length (m : List Nat) : (sha256 m).length = 32 := by
  rw [sha256]
  simp [wordBytes]

theorem hexChar_range (n : Nat) :
    (48 ≤ hexChar n ∧ hexChar n ≤ 57) ∨ (97 ≤ hexChar n ∧ hexChar n ≤ 102) := by
  rw [hexChar]
  have hn : n % 16 < 16 := Nat.mod_lt _ (by omega)
  split
  next h => left; omega
  next h => right; omega

theorem toHexBytes_range :
    ∀ l : List Nat, ∀ b ∈ toHexBytes l, (48 ≤ b ∧ b ≤ 57) ∨ (97 ≤ b ∧ b ≤ 102) := by
  intro l
  induction l with
  | nil => intro b hb; simp [toHexBytes] at hb
  | cons x xs ih =>
    intro b hb
    rw [toHexBytes] at hb
    rcases List.mem_cons.mp hb with h | hb2
    · exact h ▸ hexChar_range _
    rcases List.mem_cons.mp hb2 with h | hb3
    · exact h ▸ hexChar_range _
    · exact ih b hb3

/-- C3: messages with equal normalized forms get byte-equal fingerprints;
in particular the two concrete messages differing only in their leading
timestamp both normalize to `connection refused` and share one fingerprint,
and every fingerprint is a 64-byte lowercase-hex string. -/
theorem fingerprint_stability :
    (∀ m₁ m₂ : List Nat, NormalizeMessage m₁ = NormalizeMessage m₂ →
        Fingerprint m₁ = Fingerprint m₂) ∧
    NormalizeMessage (strBytes "2024-02-17T01:47:32.123Z connection refused") =
      strBytes "connection refused" ∧
    NormalizeMessage (strBytes "2024-02-17T02:30:00Z connection refused") =
      strBytes "connection refused" ∧
    Fingerprint (strBytes "2024-02-17T01:47:32.123Z connection refused") =
      Fingerprint (strBytes "2024-02-17T02:30:00Z connection refused") ∧
    (∀ m : List Nat, (Fingerprint m).length = 64 ∧
      ∀ b ∈ Fingerprint m, (48 ≤ b ∧ b ≤ 57) ∨ (97 ≤ b ∧ b ≤ 102)) := by
  have hcong : ∀ m₁ m₂ : List Nat, NormalizeMessage m₁ = NormalizeMessage m₂ →
      Fingerprint m₁ = Fingerprint m₂ := by
    intro m₁ m₂ h
    rw [Fingerprint, Fingerprint, h]
  refine ⟨hcong, by decide, by decide, hcong _ _ (by decide), ?_⟩
  intro m
  constructor
  · rw [Fingerprint, toHexBytes_length, sha256_length]
  · intro b hb
    rw [Fingerprint] at hb
    exact toHexBytes_range _ b hb

/-- Witness for `fingerprint_stability` at a pair differing only in a hex
address. -/
theorem fingerprint_stability_witness :
    NormalizeMessage (strBytes "err at 0xDEAD") = NormalizeMessage (strBytes "err at 0xBEEF") ∧
    Fingerprint (strBytes "err at 0xDEAD") = Fingerprint (strBytes "err at 0xBEEF") :=
  ⟨by decide, fingerprint_stability.1 _ _ (by decide)⟩

/-- C7: for every input batch, `Cluster` returns a sequence sorted
non-increasingly by (count, severity) — count descending with severity
descending as tie-break — the severity order satisfies
FATAL > CRITICAL > ERROR > WARN = WARNING, and empty input yields the empty
sequence (the Go function returns a non-nil empty slice, which a Lean list
cannot distinguish from nil). -/
theorem cluster_ordering :
    (∀ service ns, Cluster [] service ns = []) ∧
    (∀ (lines : List LogLine) (service ns : String),
      List.Sorted clusterLE (Cluster lines service ns)) ∧
    LevelSeverity "CRITICAL" < LevelSeverity "FATAL" ∧
    LevelSeverity "ERROR" < LevelSeverity "CRITICAL" ∧
    LevelSeverity "WARN" < LevelSeverity "ERROR" ∧
    LevelSeverity "WARN" = LevelSeverity "WARNING" ∧
    LevelSeverity "INFO" < LevelSeverity "WARN" := by
  refine ⟨fun s n => rfl, ?_, by decide, by decide, by decide, by decide, by decide⟩
  intro lines service ns
  rw [Cluster]
  split
  · exact List.sorted_nil
  · exact List.sorted_insertionSort clusterLE _

/-- C4: `UpdateJobStatus` succeeds exactly on the transitions
pending→running, running→completed and running→failed, rejecting every other
pair with an invalid-transition error (in particular nothing leaves a
terminal state), stamps `started_at` on entering `running` and
`completed_at` on entering `completed` or `failed`. -/
theorem updateJobStatus_transitions :
    ∀ (j : JobRow) (status : String) (now : Int) (params : JobUpdateParams),
      ((∃ j₂, UpdateJobStatus j status now params = Except.ok j₂) ↔
        (j.status = "pending" ∧ status = "running") ∨
        (j.status = "running" ∧ (status = "completed" ∨ status = "failed"))) ∧
      (∀ j₂, UpdateJobStatus j status now params = Except.ok j₂ →
        (status = "running" → j₂.startedAt = some now) ∧
        ((status = "completed" ∨ status = "failed") → j₂.completedAt = some now)) ∧
      ((j.status = "completed" ∨ j.status = "failed") →
        ∀ j₂, UpdateJobStatus j status now params ≠ Except.ok j₂) := by
  intro j status now params
  have hc : ((validTransitions j.status).contains status = true) ↔
      ((j.status = "pending" ∧ status = "running") ∨
       (j.status = "running" ∧ (status = "completed" ∨ status = "failed"))) := by
    rw [validTransitions]
    by_cases h1 : j.status = "pending"
    · simp [h1, List.contains_cons, beq_iff_eq]
    · by_cases h2 : j.status = "running"
      · simp [h1, h2, List.contains_cons, beq_iff_eq]
      · simp [h1, h2, List.contains_cons, List.contains_nil]
  have hiff : (∃ j₂, UpdateJobStatus j status now params = Except.ok j₂) ↔
      ((j.status = "pending" ∧ status = "running") ∨
       (j.status = "running" ∧ (status = "completed" ∨ status = "failed"))) := by
    constructor
    · rintro ⟨j₂, hj⟩
      rw [UpdateJobStatus] at hj
      split at hj
      next h => exact hc.mp h
      next h => exact Except.noConfusion hj
    · intro h
      rw [UpdateJobStatus, if_pos (hc.mpr h)]
      exact ⟨_, rfl⟩
  refine ⟨hiff, ?_, ?_⟩
  · intro j₂ hj
    rw [UpdateJobStatus] at hj
    split at hj
    next h =>
      cases hj
      constructor
      · intro hs
        show (if status = "running" then some now else j.startedAt) = some now
        rw [if_pos hs]
      · intro hs
        show (if status = "completed" ∨ status = "failed" then some now else j.completedAt) =
          some now
        rw [if_pos hs]
    next h => exact Except.noConfusion hj
  · intro ht j₂ hj
    have hd := hiff.mp ⟨j₂, hj⟩
    rcases ht with ht | ht <;> rcases hd with ⟨h₁, _⟩ | ⟨h₁, _⟩ <;> rw [ht] at h₁ <;>
      exact absurd h₁ (by decide)

/-- Witness for `updateJobStatus_transitions`: the pending job transitions to
running at time 7 and gets its start timestamp. -/
theorem updateJobStatus_transitions_witness :
    UpdateJobStatus jobPending "running" 7 {} = Except.ok jobRunningAt7 ∧
    jobRunningAt7.startedAt = some 7 := by
  have h : UpdateJobStatus jobPending "running" 7 {} = Except.ok jobRunningAt7 := by rfl
  exact ⟨h, ((updateJobStatus_transitions jobPending "running" 7 {}).2.1 jobRunningAt7 h).1 rfl⟩

/-! ### Helper lemmas about upsert sequences -/

theorem upsertAll_cons (t : List ErrorClusterRow) (c : ErrorClusterRow)
    (cs : List ErrorClusterRow) (now : Int) :
    upsertAll t (c :: cs) now = upsertAll (UpsertErrorCluster t c now).1 cs now := by
  rw [upsertAll, upsertAll, List.foldl_cons]

theorem upsert_single (cs : List ErrorClusterRow) :
    ∀ (r : ErrorClusterRow) (now : Int), (∀ x ∈ cs, rowKey x = rowKey r) →
    ∃ r₂, upsertAll [r] cs now = [r₂] ∧ rowKey r₂ = rowKey r ∧ r₂.id = r.id ∧
      r₂.count = r.count + (cs.map (·.count)).sum ∧
      r₂.lastSeenAt = cs.foldl (fun m x => max m x.lastSeenAt) r.lastSeenAt := by
  induction cs with
  | nil =>
    intro r now _
    exact ⟨r, rfl, rfl, rfl, by simp, rfl⟩
  | cons c cs ih =>
    intro r now h
    have hk : rowKey r = rowKey c := (h c (List.mem_cons_self c cs)).symm
    have hstep : (UpsertErrorCluster [r] c now).1 =
        [{ r with count := r.count + c.count,
                  lastSeenAt := max r.lastSeenAt c.lastSeenAt,
                  updatedAt := now }] := by
      rw [UpsertErrorCluster]
      simp [List.find?, hk]
    have h₂ : ∀ x ∈ cs, rowKey x =
        rowKey { r with count := r.count + c.count,
                        lastSeenAt := max r.lastSeenAt c.lastSeenAt,
                        updatedAt := now } :=
      fun x hx => h x (List.mem_cons_of_mem c hx)
    obtain ⟨r₂, g1, g2, g3, g4, g5⟩ := ih _ now h₂
    refine ⟨r₂, ?_, g2, g3, ?_, ?_⟩
    · rw [upsertAll_cons, hstep]
      exact g1
    · rw [g4]
      simp [List.map_cons, List.sum_cons]
      ring
    · rw [g5, List.foldl_cons]

theorem le_foldl_max : ∀ (xs : List Int) (a : Int), a ≤ xs.foldl max a := by
  intro xs
  induction xs with
  | nil => intro a; exact le_refl a
  | cons x xs ih => intro a; exact (le_max_left a x).trans (ih (max a x))

theorem foldl_max_le_of_mem : ∀ (xs : List Int) (a y : Int), y ∈ xs → y ≤ xs.foldl max a := by
  intro xs
  induction xs with
  | nil => intro a y hy; simp at hy
  | cons x xs ih =>
    intro a y hy
    rcases List.mem_cons.mp hy with h | h
    · subst h
      exact (le_max_right a y).trans (le_foldl_max xs (max a y))
    · exact ih _ y h

theorem foldl_max_mem : ∀ (xs : List Int) (a : Int), xs.foldl max a = a ∨ xs.foldl max a ∈ xs := by
  intro xs
  induction xs with
  | nil => intro a; exact Or.inl rfl
  | cons x xs ih =>
    intro a
    rcases ih (max a x) with h | h
    · rcases max_choice a x with hm | hm
      · exact Or.inl (by rw [List.foldl_cons, h, hm])
      · exact Or.inr (by rw [List.foldl_cons, h, hm]; exact List.mem_cons_self x xs)
    · exact Or.inr (List.mem_cons_of_mem x (by rw [List.foldl_cons]; exact h))

theorem maxOfList_mem (l : List Int) (hl : l ≠ []) : maxOfList l ∈ l := by
  match l with
  | x :: xs =>
    rw [maxOfList]
    rcases foldl_max_mem xs x with h | h
    · rw [h]
      exact List.mem_cons_self x xs
    · exact List.mem_cons_of_mem x h

theorem le_maxOfList (l : List Int) (y : Int) (hy : y ∈ l) : y ≤ maxOfList l := by
  match l with
  | x :: xs =>
    rw [maxOfList]
    rcases List.mem_cons.mp hy with h | h
    · subst h
      exact le_foldl_max xs y
    · exact foldl_max_le_of_mem xs x y h

theorem maxOfList_perm {l₁ l₂ : List Int} (h : l₁.Perm l₂) (hne : l₁ ≠ []) :
    maxOfList l₁ = maxOfList l₂ := by
  have hne₂ : l₂ ≠ [] := fun h2 => hne (List.Perm.eq_nil (h2 ▸ h))
  exact le_antisymm
    (le_maxOfList l₂ _ (h.mem_iff.mp (maxOfList_mem l₁ hne)))
    (le_maxOfList l₁ _ (h.mem_iff.mpr (maxOfList_mem l₂ hne₂)))

theorem upsert_fold_char (c : ErrorClusterRow) (cs : List ErrorClusterRow) (now : Int)
    (h : ∀ x ∈ cs, rowKey x = rowKey c) :
    ∃ r, getRow (upsertAll [] (c :: cs) now) (rowKey c) = some r ∧
      r.id = c.id ∧ r.count = ((c :: cs).map (·.count)).sum ∧
      r.lastSeenAt = maxOfList ((c :: cs).map (·.lastSeenAt)) := by
  have h0 : upsertAll [] (c :: cs) now = upsertAll [c] cs now := by
    rw [upsertAll_cons]
    rfl
  obtain ⟨r₂, g1, g2, g3, g4, g5⟩ := upsert_single cs c now h
  refine ⟨r₂, ?_, g3, ?_, ?_⟩
  · rw [h0, g1, getRow]
    simp [List.find?, g2]
  · rw [g4]
    simp [List.map_cons, List.sum_cons]
  · rw [g5, List.map_cons, maxOfList, ← List.foldl_map]

/-- C5: for every sequence of `UpsertErrorCluster` calls sharing one
`(tenant, service, namespace, fingerprint)` key, starting from a table with
no row for that key: the surviving row keeps the id of the first insert, its
count is the sum of all contributed counts and its `last_seen_at` is the
maximum of all contributed last-seen timestamps; count and `last_seen_at`
are independent of the order of the upserts. -/
theorem upsert_accumulates :
    ∀ (c : ErrorClusterRow) (cs : List ErrorClusterRow) (now : Int),
      (∀ x ∈ cs, rowKey x = rowKey c) →
      ∃ r, getRow (upsertAll [] (c :: cs) now) (rowKey c) = some r ∧
        r.id = c.id ∧
        r.count = ((c :: cs).map (·.count)).sum ∧
        r.lastSeenAt = maxOfList ((c :: cs).map (·.lastSeenAt)) ∧
        ∀ (c₂ : ErrorClusterRow) (cs₂ : List ErrorClusterRow),
          (c :: cs).Perm (c₂ :: cs₂) →
          ∃ r₂, getRow (upsertAll [] (c₂ :: cs₂) now) (rowKey c₂) = some r₂ ∧
            r₂.count = r.count ∧ r₂.lastSeenAt = r.lastSeenAt := by
  intro c cs now h
  obtain ⟨r, g1, g2, g3, g4⟩ := upsert_fold_char c cs now h
  refine ⟨r, g1, g2, g3, g4, ?_⟩
  intro c₂ cs₂ hp
  have hkey₂ : rowKey c₂ = rowKey c := by
    have hmem : c₂ ∈ c :: cs := hp.mem_iff.mpr (List.mem_cons_self c₂ cs₂)
    rcases List.mem_cons.mp hmem with h' | h'
    · rw [h']
    · exact h _ h'
  have h₂ : ∀ x ∈ cs₂, rowKey x = rowKey c₂ := by
    intro x hx
    have hmem : x ∈ c :: cs := hp.mem_iff.mpr (List.mem_cons_of_mem c₂ hx)
    rcases List.mem_cons.mp hmem with h' | h'
    · rw [h', hkey₂]
    · exact (h _ h').trans hkey₂.symm
  obtain ⟨r₂, k1, k2, k3, k4⟩ := upsert_fold_char c₂ cs₂ now h₂
  refine ⟨r₂, k1, ?_, ?_⟩
  · rw [k3, g3]
    exact ((hp.map (·.count)).sum_eq).symm
  · rw [k4, g4]
    exact (maxOfList_perm (hp.map (·.lastSeenAt)) (by simp)).symm

/-- Witness for `upsert_accumulates`: three same-key upserts with ids 1, 2, 3
and counts 3, 1, 4 leave a row with id 1, count 8 and the latest last-seen. -/
theorem upsert_accumulates_witness :
    (∀ x ∈ [c1incoming, c5third], rowKey x = rowKey c1stored) ∧
    ∃ r, getRow (upsertAll [] (c1stored :: [c1incoming, c5third]) 99) (rowKey c1stored) =
        some r ∧
      r.id = c1stored.id ∧
      r.count = ((c1stored :: [c1incoming, c5third]).map (·.count)).sum ∧
      r.lastSeenAt = maxOfList ((c1stored :: [c1incoming, c5third]).map (·.lastSeenAt)) ∧
      ∀ (c₂ : ErrorClusterRow) (cs₂ : List ErrorClusterRow),
        (c1stored :: [c1incoming, c5third]).Perm (c₂ :: cs₂) →
        ∃ r₂, getRow (upsertAll [] (c₂ :: cs₂) 99) (rowKey c₂) = some r₂ ∧
          r₂.count = r.count ∧ r₂.lastSeenAt = r.lastSeenAt :=
  ⟨by decide, upsert_accumulates c1stored [c1incoming, c5third] 99 (by decide)⟩

/-- C1 counterexample: `UpsertErrorCluster` hitting an existing row with a
strictly higher-severity incoming level returns the stored (lower-severity)
level: the `ON CONFLICT ... DO UPDATE` clause does not touch the `level`
column. -/
theorem upsert_level_counterexample :
    LevelSeverity c1incoming.level > LevelSeverity c1stored.level ∧
    (UpsertErrorCluster [c1stored] c1incoming 99).2.level = "error" ∧
    (UpsertErrorCluster [c1stored] c1incoming 99).2.level ≠ c1incoming.level := by
  decide

/-- C1 (amended): when `UpsertErrorCluster` hits an existing row, the
canonical row returned keeps the stored row's `level` (and `id`) unchanged —
regardless of the incoming cluster's severity — while `count` accumulates
and `last_seen_at` advances to the later timestamp.  The highest-severity
rule holds only within a single in-memory `Cluster` batch. -/
theorem upsert_level_preserved (table : List ErrorClusterRow) (c r : ErrorClusterRow)
    (now : Int) (h : getRow table (rowKey c) = some r) :
    (UpsertErrorCluster table c now).2.level = r.level ∧
    (UpsertErrorCluster table c now).2.id = r.id ∧
    (UpsertErrorCluster table c now).2.count = r.count + c.count ∧
    (UpsertErrorCluster table c now).2.lastSeenAt = max r.lastSeenAt c.lastSeenAt := by
  rw [getRow] at h
  rw [UpsertErrorCluster] at *
  simp [h]

/-- Witness for `upsert_level_preserved` at the concrete stored/incoming
pair. -/
theorem upsert_level_preserved_witness :
    getRow [c1stored] (rowKey c1incoming) = some c1stored ∧
    ((UpsertErrorCluster [c1stored] c1incoming 99).2.level = c1stored.level ∧
     (UpsertErrorCluster [c1stored] c1incoming 99).2.id = c1stored.id ∧
     (UpsertErrorCluster [c1stored] c1incoming 99).2.count = c1stored.count + c1incoming.count ∧
     (UpsertErrorCluster [c1stored] c1incoming 99).2.lastSeenAt =
       max c1stored.lastSeenAt c1incoming.lastSeenAt) :=
  ⟨by decide, upsert_level_preserved [c1stored] c1incoming c1stored 99 (by decide)⟩

/-- C6: every analysis result persisted by the background analysis task has
confidence clamped into [0, 1] (1.5 becomes 1.0), a root cause of at most
4000 bytes and a summary of at most 2000 bytes, both truncated prefixes
ending on a UTF-8 rune boundary. -/
theorem analysis_result_bounds :
    ∀ (r : ProviderAnalysisResult) (pn : String) (jobId clusterId tenantId : Nat) (now : Int),
      0 ≤ (processAnalysisResult r pn jobId clusterId tenantId now).confidence ∧
      (processAnalysisResult r pn jobId clusterId tenantId now).confidence ≤ 1 ∧
      (processAnalysisResult r pn jobId clusterId tenantId now).rootCause.length ≤ 4000 ∧
      (∃ t, (processAnalysisResult r pn jobId clusterId tenantId now).rootCause ++ t =
        r.rootCause) ∧
      ((processAnalysisResult r pn jobId clusterId tenantId now).rootCause.length =
          r.rootCause.length ∨
       (processAnalysisResult r pn jobId clusterId tenantId now).rootCause.length = 0 ∨
       runeStart (r.rootCause.getD
         (processAnalysisResult r pn jobId clusterId tenantId now).rootCause.length 0) = true) ∧
      (processAnalysisResult r pn jobId clusterId tenantId now).summary.length ≤ 2000 ∧
      (∃ t, (processAnalysisResult r pn jobId clusterId tenantId now).summary ++ t =
        r.summary) ∧
      ((processAnalysisResult r pn jobId clusterId tenantId now).summary.length =
          r.summary.length ∨
       (processAnalysisResult r pn jobId clusterId tenantId now).summary.length = 0 ∨
       runeStart (r.summary.getD
         (processAnalysisResult r pn jobId clusterId tenantId now).summary.length 0) = true) ∧
      (r.confidence = 3 / 2 →
        (processAnalysisResult r pn jobId clusterId tenantId now).confidence = 1) := by
  intro r pn jobId clusterId tenantId now
  have hconf : (processAnalysisResult r pn jobId clusterId tenantId now).confidence =
      (if (if r.confidence < 0 then 0 else r.confidence) > 1 then 1
       else if r.confidence < 0 then 0 else r.confidence) := by
    rw [processAnalysisResult]
  refine ⟨?_, ?_, truncateString_length_le _ _, truncateString_append _ _,
    truncateString_boundary _ _, truncateString_length_le _ _, truncateString_append _ _,
    truncateString_boundary _ _, ?_⟩
  · rw [hconf]
    split_ifs <;> linarith
  · rw [hconf]
    split_ifs <;> linarith
  · intro h15
    rw [hconf, h15]
    norm_num

/-- Witness for `analysis_result_bounds`: a provider confidence of 1.5 is
persisted as 1.0. -/
theorem analysis_result_bounds_witness :
    overconfidentResult.confidence = 3 / 2 ∧
    (processAnalysisResult overconfidentResult "mock" 1 2 3 9).confidence = 1 :=
  ⟨rfl, (analysis_result_bounds overconfidentResult "mock" 1 2 3 9).2.2.2.2.2.2.2.2 rfl⟩

/-- C8: for an authenticated request through the rate-limit middleware, a
cache increment error allows the request with no rate-limit headers;
otherwise the response carries `X-RateLimit-Limit = limit`,
`X-RateLimit-Remaining = max(limit - count, 0)`,
`X-RateLimit-Reset = now + 60`, and the request is rejected with 429,
`RATE_LIMIT_EXCEEDED` and `Retry-After: 60` exactly when `count > limit`. -/
theorem rate_limit_contract :
    ∀ (limit count now : Int) (p : String),
      rateLimitStep limit (some p) (Except.error ()) now =
        { allowed := true, limitHeader := none, remainingHeader := none,
          resetHeader := none, retryAfter := none, statusCode := none, errorCode := none } ∧
      (rateLimitStep limit (some p) (Except.ok count) now).limitHeader = some limit ∧
      (rateLimitStep limit (some p) (Except.ok count) now).remainingHeader =
        some (max (limit - count) 0) ∧
      (rateLimitStep limit (some p) (Except.ok count) now).resetHeader = some (now + 60) ∧
      ((rateLimitStep limit (some p) (Except.ok count) now).allowed = false ↔ count > limit) ∧
      (count > limit →
        (rateLimitStep limit (some p) (Except.ok count) now).statusCode = some 429 ∧
        (rateLimitStep limit (some p) (Except.ok count) now).errorCode =
          some "RATE_LIMIT_EXCEEDED" ∧
        (rateLimitStep limit (some p) (Except.ok count) now).retryAfter = some 60) ∧
      (¬count > limit →
        (rateLimitStep limit (some p) (Except.ok count) now).statusCode = none ∧
        (rateLimitStep limit (some p) (Except.ok count) now).retryAfter = none) := by
  intro limit count now p
  have hmax : (if limit - count < 0 then (0 : Int) else limit - count) = max (limit - count) 0 := by
    split_ifs with h <;> [skip; skip] <;> omega
  by_cases h : count > limit
  · refine ⟨rfl, ?_, ?_, ?_, ?_, fun _ => ⟨?_, ?_, ?_⟩, fun hn => absurd h hn⟩ <;>
      (simp [rateLimitStep, if_pos h, hmax, h]; try omega)
  · refine ⟨rfl, ?_, ?_, ?_, ?_, fun hy => absurd hy h, fun _ => ⟨?_, ?_⟩⟩ <;>
      (simp [rateLimitStep, if_neg h, hmax, h]; try omega)

/-- Witness for `rate_limit_contract`: with limit 10 and count 11 the request
is rejected with 429 and Retry-After 60. -/
theorem rate_limit_contract_witness :
    ((11 : Int) > 10) ∧
    ((rateLimitStep 10 (some "lh_test01") (Except.ok 11) 1000).statusCode = some 429 ∧
     (rateLimitStep 10 (some "lh_test01") (Except.ok 11) 1000).errorCode =
       some "RATE_LIMIT_EXCEEDED" ∧
     (rateLimitStep 10 (some "lh_test01") (Except.ok 11) 1000).retryAfter = some 60) :=
  ⟨by norm_num, (rate_limit_contract 10 11 1000 "lh_test01").2.2.2.2.2.1 (by norm_num)⟩

/-- C10: every successful `Summarize` call reports the provider's name but an
empty model: the `SummarizeResult` literal never populates `Model`, whose Go
zero value is the empty string. -/
theorem summarize_provider_model :
    ∀ (pn : String) (startT endT : Int) (q : Except Unit (List (List Nat)))
      (prov : Except Unit String) (r : SummarizeResult),
      Summarize pn startT endT q prov = Except.ok r →
      r.provider = pn ∧ r.model = "" := by
  intro pn startT endT q prov r h
  rw [Summarize.eq_def] at h
  rcases q with _ | logs
  · exact Except.noConfusion h
  · dsimp only at h
    by_cases hl : logs.length = 0
    · rw [if_pos hl] at h
      exact Except.noConfusion h
    · rw [if_neg hl] at h
      rcases prov with _ | summaryText
      · exact Except.noConfusion h
      · cases h
        exact ⟨rfl, rfl⟩

/-- Witness for `summarize_provider_model` at a concrete successful call. -/
theorem summarize_provider_model_witness :
    Summarize "mock" 0 100 (Except.ok [strBytes "error one"]) (Except.ok "all good") =
      Except.ok { summary := "all good", linesAnalyzed := 1, fromTime := 0, toTime := 100,
                  provider := "mock", model := "" } ∧
    ({ summary := "all good", linesAnalyzed := 1, fromTime := 0, toTime := 100,
       provider := "mock", model := "" } : SummarizeResult).provider = "mock" ∧
    ({ summary := "all good", linesAnalyzed := 1, fromTime := 0, toTime := 100,
       provider := "mock", model := "" } : SummarizeResult).model = "" :=
  ⟨rfl, summarize_provider_model "mock" 0 100 (Except.ok [strBytes "error one"])
    (Except.ok "all good") _ rfl⟩
